import Mathlib

/-!
Verification development for the constant-pH titration sampler
(`protons`): shallow embedding of
- the Chen-Roux salt-swap selection (`proposals.py`,
  `OneDirectionChargeProposal._select_swaps_chenroux`, `_validate_swaps`,
  `select_ions`),
- the residue-selection proposal strategies (`UniformProposal`,
  `DoubleProposal`, `CategoricalProposal`),
- the SAMS calibration engine (`calibration.py`,
  `SelfAdjustedMixtureSampling`),
- the closed-form state-population models (`Histidine`, `Aspartic4`,
  `Glutamic4`, `Lysine`, `Tyrosine`, `Cysteine`).

Python integers are embedded as `Int` (or `Nat` for counts that are only
ever incremented from zero), float arithmetic as exact real arithmetic
over `Real` (rationals `Rat` where only exact comparisons matter),
`raise` as `Except.error`.  Randomness (`random.sample`,
`random.choice`, `np.random.choice`) is externalized: the drawn values
are parameters of the embedded functions.
-/

/-! ## Chen-Roux swap selection (`proposals.py`) -/

/-- The four kinds of water/ion identity conversions used by
`_select_swaps_chenroux` (the keys of its `swaps` dict). -/
inductive SwapKind : Type
  | waterToCation
  | waterToAnion
  | anionToWater
  | cationToWater
deriving DecidableEq, Repr

/-- The swap-count dictionary
`dict(water_to_cation, water_to_anion, cation_to_water, anion_to_water)`.
The counts start at 0 and are only ever incremented, hence `Nat`. -/
structure Swaps : Type where
  waterToCation : Nat
  waterToAnion : Nat
  cationToWater : Nat
  anionToWater : Nat
deriving DecidableEq, Repr

/-- Embeds `swaps[kind] += 1`. -/
def Swaps.incr (s : Swaps) : SwapKind → Swaps
  | .waterToCation => { s with waterToCation := s.waterToCation + 1 }
  | .waterToAnion => { s with waterToAnion := s.waterToAnion + 1 }
  | .anionToWater => { s with anionToWater := s.anionToWater + 1 }
  | .cationToWater => { s with cationToWater := s.cationToWater + 1 }

/-- Net charge contribution of a swap dictionary: each water-to-cation
and each anion-to-water adds `+1`, each water-to-anion and each
cation-to-water adds `-1`. -/
def Swaps.netCharge (s : Swaps) : Int :=
  (s.waterToCation : Int) + (s.anionToWater : Int)
    - (s.waterToAnion : Int) - (s.cationToWater : Int)

/-- One iteration of the reduction loop of `_select_swaps_chenroux`
(`proposals.py` lines 408-431): given the current value of the mutable
`initial_charge` variable `i` and the fixed `final_charge` `f`, return
the swap performed and the new value of `initial_charge`, or `none` when
no rule matches (the `raise ValueError("Impossible scenario reached.")`
branch).  The loop variable `charge_to_counter` is updated in lockstep
with `initial_charge` (`+= 1` paired with `i -= 1` and vice versa), so
it always equals `f - i`; the embedding maintains it as that
expression. -/
def chenrouxRule (i f : Int) : Option (SwapKind × Int) :=
  if (i > 0 ∧ 0 ≥ f) ∨ (0 < f ∧ f < i) then
    some (.waterToCation, i - 1)
  else if (i < 0 ∧ 0 ≤ f) ∨ (0 > f ∧ f > i) then
    some (.waterToAnion, i + 1)
  else if (i = 0 ∧ 0 > f) ∨ (0 > i ∧ i > f) then
    some (.anionToWater, i - 1)
  else if (i = 0 ∧ 0 < f) ∨ (0 < i ∧ i < f) then
    some (.cationToWater, i + 1)
  else
    none

lemma chenrouxRule_decreases {i f : Int} {k : SwapKind} {i' : Int}
    (hr : chenrouxRule i f = some (k, i')) :
    (f - i').natAbs < (f - i).natAbs := by
  unfold chenrouxRule at hr
  split_ifs at hr with h1 h2 h3 h4 <;>
    first
      | (injection hr with hr; injection hr with hk hi; subst hi; omega)
      | exact absurd hr (by simp)

lemma chenrouxRule_total {i f : Int} (h : f - i ≠ 0) :
    ∃ k i', chenrouxRule i f = some (k, i') := by
  unfold chenrouxRule
  split_ifs with h1 h2 h3 h4
  · exact ⟨_, _, rfl⟩
  · exact ⟨_, _, rfl⟩
  · exact ⟨_, _, rfl⟩
  · exact ⟨_, _, rfl⟩
  · exact absurd rfl (by omega : ¬ (0 : Int) = 0)

lemma chenrouxRule_net {i f : Int} {k : SwapKind} {i' : Int}
    (hr : chenrouxRule i f = some (k, i')) (s : Swaps) :
    (s.incr k).netCharge = s.netCharge + (i - i') := by
  unfold chenrouxRule at hr
  split_ifs at hr with h1 h2 h3 h4 <;>
    first
      | (injection hr with hr; injection hr with hk hi;
         subst hk; subst hi; simp [Swaps.incr, Swaps.netCharge]; omega)
      | exact absurd hr (by simp)

/-- The `while abs(charge_to_counter) > 0` reduction loop of
`_select_swaps_chenroux`, with `charge_to_counter = f - i` (see
`chenrouxRule`).  The `none` case of the rule is the
`ValueError("Impossible scenario reached.")` branch. -/
def selectSwapsAux (i f : Int) (s : Swaps) : Except String Swaps :=
  if (f - i).natAbs = 0 then .ok s
  else
    match hr : chenrouxRule i f with
    | some (k, i') => selectSwapsAux i' f (s.incr k)
    | none => .error "Impossible scenario reached."
termination_by (f - i).natAbs
decreasing_by exact chenrouxRule_decreases hr

/-- Embeds `OneDirectionChargeProposal._select_swaps_chenroux(initial_charge,
final_charge)`: starts from the all-zero swap dictionary and runs the
reduction loop. -/
def selectSwapsChenroux (initialCharge finalCharge : Int) :
    Except String Swaps :=
  selectSwapsAux initialCharge finalCharge ⟨0, 0, 0, 0⟩

lemma selectSwapsAux_spec : ∀ (n : Nat) (i f : Int), (f - i).natAbs ≤ n →
    ∀ s : Swaps, ∃ s' : Swaps,
      selectSwapsAux i f s = .ok s' ∧
        s'.netCharge = s.netCharge + (i - f) := by
  intro n
  induction n with
  | zero =>
    intro i f h s
    have hif : f - i = 0 := by omega
    refine ⟨s, ?_, by omega⟩
    rw [selectSwapsAux]
    simp [hif]
  | succ n ih =>
    intro i f h s
    by_cases hif : f - i = 0
    · refine ⟨s, ?_, by omega⟩
      rw [selectSwapsAux]
      simp [hif]
    · obtain ⟨k, i', hr⟩ := chenrouxRule_total hif
      have hdec := chenrouxRule_decreases hr
      obtain ⟨s', hok, hnet⟩ := ih i' f (by omega) (s.incr k)
      refine ⟨s', ?_, ?_⟩
      · rw [selectSwapsAux]
        simp only [if_neg (by omega : ¬ (f - i).natAbs = 0)]
        rw [hr]
        exact hok
      · rw [hnet, chenrouxRule_net hr s]
        omega

/-- Embeds `SaltSwapProposal._validate_swaps(swaps)` (`proposals.py` lines
194-211): the `if`/`elif` chain of sanity checks, raising
`RuntimeError` on conflicting swap directions. -/
def validateSwaps (s : Swaps) : Except String Unit :=
  if s.waterToCation ≠ 0 ∧ s.waterToAnion ≠ 0 then
    .error "Opposing charge ions are added. This is a bug in the code."
  else if s.cationToWater ≠ 0 ∧ s.anionToWater ≠ 0 then
    .error "Opposing charge ions are removed. This is a bug in the code."
  else if s.cationToWater ≠ 0 ∧ s.waterToCation ≠ 0 then
    .error "Cations are being added and removed at the same time."
  else if s.anionToWater ≠ 0 ∧ s.waterToAnion ≠ 0 then
    .error "Anions are being added and removed at the same time."
  else
    .ok ()

/-- At most one of the four swap counts is nonzero. -/
def Swaps.atMostOneNonzero (s : Swaps) : Prop :=
  ((s.waterToCation ≠ 0 → s.waterToAnion = 0 ∧ s.cationToWater = 0 ∧
      s.anionToWater = 0) ∧
    (s.waterToAnion ≠ 0 → s.waterToCation = 0 ∧ s.cationToWater = 0 ∧
      s.anionToWater = 0) ∧
    (s.cationToWater ≠ 0 → s.waterToCation = 0 ∧ s.waterToAnion = 0 ∧
      s.anionToWater = 0) ∧
    (s.anionToWater ≠ 0 → s.waterToCation = 0 ∧ s.waterToAnion = 0 ∧
      s.cationToWater = 0))

instance (s : Swaps) : Decidable s.atMostOneNonzero := by
  unfold Swaps.atMostOneNonzero
  infer_instance

/-! ## Residue-selection proposal strategies (`proposals.py`) -/

/-- State of `CategoricalProposal` after construction: stores `p_N` and
`N = len(p_N)`.  The float probabilities are embedded as rationals,
since only the exact comparison `sum(p_N) == 1.0` is performed. -/
structure CategoricalProposal : Type where
  p_N : List Rat
  N : Nat
deriving DecidableEq, Repr

/-- Embeds `CategoricalProposal.__init__(p_N)` (`proposals.py` lines 126-140):
`if not sum(p_N) == 1.0: raise ValueError("p_N should sum to 1.0")`,
an exact comparison, then stores `p_N` and `N = len(p_N)`. -/
def categoricalInit (p : List Rat) : Except String CategoricalProposal :=
  if p.sum = 1 then .ok ⟨p, p.length⟩
  else .error "p_N should sum to 1.0"

/-- The triple returned by every `propose_states`:
`(final_titration_states, titration_group_indices, log_ratio)`. -/
structure ProposalResult : Type where
  finalStates : List Nat
  changedIndices : List Nat
  logRP : Rat
deriving DecidableEq, Repr

/-- Embeds `random.sample(pool, k)`: raises `ValueError` when `k` exceeds the
population size, otherwise returns `k` distinct elements of `pool`.
Which `k` elements are drawn is external randomness; it is modelled as
the first `k` entries of the (caller-shuffled) pool. -/
def randomSample (pool : List Nat) (k : Nat) : Option (List Nat) :=
  if k ≤ pool.length then some (pool.take k) else none

/-- The state-update loop shared by all strategies: for each chosen
group index, set its entry of `final_titration_states` to a uniformly
drawn state.  The random `random.choice(range(num_states(i)))` draw is
externalized as `pick`. -/
def applyNewStates (states : List Nat) (idxs : List Nat)
    (pick : Nat → Nat) : List Nat :=
  idxs.foldl (fun acc i => acc.set i (pick i)) states

/-- Embeds `UniformProposal.propose_states` (`proposals.py` lines 41-65):
sample exactly one group from the pool, redraw its state, log-ratio
`0.0`. -/
def uniformProposeStates (states pool : List Nat) (pick : Nat → Nat) :
    Option ProposalResult :=
  (randomSample pool 1).map fun idxs =>
    ⟨applyNewStates states idxs pick, idxs, 0⟩

/-- Embeds `DoubleProposal.propose_states` (`proposals.py` lines 84-120):
`ndraw = 1`, bumped to 2 when the pool has more than one element and
the uniform draw fell below `simultaneous_proposal_probability`
(externalized as the Boolean `drawTwo`). -/
def doubleProposeStates (states pool : List Nat) (drawTwo : Bool)
    (pick : Nat → Nat) : Option ProposalResult :=
  let ndraw := if 1 < pool.length ∧ drawTwo = true then 2 else 1
  (randomSample pool ndraw).map fun idxs =>
    ⟨applyNewStates states idxs pick, idxs, 0⟩

/-- Embeds `CategoricalProposal.propose_states` (`proposals.py` lines
142-160): `ndraw = np.random.choice(self.N, 1, p=self.p_N) + 1`; the
categorical draw yields `nChoice ∈ {0, ..., N-1}` (externalized), so
`ndraw = nChoice + 1` regardless of the pool size. -/
def categoricalProposeStates (c : CategoricalProposal)
    (states pool : List Nat) (nChoice : Nat) (pick : Nat → Nat) :
    Option ProposalResult :=
  let _ := c.N
  let ndraw := nChoice + 1
  (randomSample pool ndraw).map fun idxs =>
    ⟨applyNewStates states idxs pick, idxs, 0⟩

/-! ## Salt-swap selection probabilities (`select_ions`) -/

/-- Embeds `scipy.misc.comb(n, k, exact=True)`: the binomial coefficient. -/
def comb (n k : Nat) : Nat := n.choose k

/-- The `log_ratio` computation of
`OneDirectionChargeProposal.select_ions` (`proposals.py` lines
240-331), with the swapper state vector summarized by the pool sizes
`nWaters = len(np.where(stateVector == 0))`, `nCations`, `nAnions`.
Each of the four `if` branches contributes
`(log_p_reverse - log_p_forward) - work` to the running log-ratio.
NOTE: in the `cation_to_water` branch the source computes the reverse
probability from `all_cations.size + m` (line 307-308), although its
own comment (lines 305-306) says `n_water + m`.  The index bookkeeping
(which waters/ions are drawn) does not affect the log-ratio and is
omitted. -/
noncomputable def selectIonsLogRatio (chem cationWeight anionWeight : Real)
    (nWaters nCations nAnions : Nat) (lr0 : Real) (sw : Swaps) : Real :=
  let lr1 :=
    if 0 < sw.waterToCation then
      lr0 + ((-Real.log (comb (nCations + sw.waterToCation) sw.waterToCation))
          - (-Real.log (comb nWaters sw.waterToCation)))
        - chem * cationWeight
    else lr0
  let lr2 :=
    if 0 < sw.waterToAnion then
      lr1 + ((-Real.log (comb (nAnions + sw.waterToAnion) sw.waterToAnion))
          - (-Real.log (comb nWaters sw.waterToAnion)))
        - chem * anionWeight
    else lr1
  let lr3 :=
    if 0 < sw.cationToWater then
      lr2 + ((-Real.log (comb (nCations + sw.cationToWater) sw.cationToWater))
          - (-Real.log (comb nCations sw.cationToWater)))
        - (-chem * cationWeight)
    else lr2
  let lr4 :=
    if 0 < sw.anionToWater then
      lr3 + ((-Real.log (comb (nWaters + sw.anionToWater) sw.anionToWater))
          - (-Real.log (comb nAnions sw.anionToWater)))
        - (-chem * anionWeight)
    else lr3
  lr4

/-- Modelled from the spec: the selection-probability formula the spec
(and the comments in the source) prescribe for `select_ions` —
`log P_forward = -log C(n_pool, m)` over the converted-from pool and
`log P_reverse = -log C(n_pool_after + m, m)` over the converted-to
pool measured after the reverse conversion; in particular the
`cation_to_water` branch uses the water pool `nWaters + m` for the
reverse pick. -/
noncomputable def selectIonsLogRatioSpec (chem cationWeight anionWeight : Real)
    (nWaters nCations nAnions : Nat) (lr0 : Real) (sw : Swaps) : Real :=
  let lr1 :=
    if 0 < sw.waterToCation then
      lr0 + ((-Real.log (comb (nCations + sw.waterToCation) sw.waterToCation))
          - (-Real.log (comb nWaters sw.waterToCation)))
        - chem * cationWeight
    else lr0
  let lr2 :=
    if 0 < sw.waterToAnion then
      lr1 + ((-Real.log (comb (nAnions + sw.waterToAnion) sw.waterToAnion))
          - (-Real.log (comb nWaters sw.waterToAnion)))
        - chem * anionWeight
    else lr1
  let lr3 :=
    if 0 < sw.cationToWater then
      lr2 + ((-Real.log (comb (nWaters + sw.cationToWater) sw.cationToWater))
          - (-Real.log (comb nCations sw.cationToWater)))
        - (-chem * cationWeight)
    else lr2
  let lr4 :=
    if 0 < sw.anionToWater then
      lr3 + ((-Real.log (comb (nWaters + sw.anionToWater) sw.anionToWater))
          - (-Real.log (comb nAnions sw.anionToWater)))
        - (-chem * anionWeight)
    else lr3
  lr4

/-! ## SAMS calibration engine (`calibration.py`) -/

/-- One titration state of the calibrated group: its bias free energy
`g_k` (a.k.a. zeta) and its `target_weight`, the two per-state fields
read and written by `SelfAdjustedMixtureSampling`. -/
structure TState : Type where
  g_k : Real
  target_weight : Real

/-- The mutable state touched by `SelfAdjustedMixtureSampling` for the
calibrated titration group (`group_index` fixed to the single group
under calibration): the adaptation counter, the visitation histogram
`state_counts`, the titration states of the group, the current
titration state index reported by the drive, and the per-state reduced
potentials `ub_j` of the drive (read by the global scheme). -/
structure SAMSState : Type where
  n_adaptations : Nat
  state_counts : List Real
  states : List TState
  current_state : Nat
  reduced_potentials : List Real

/-- Embeds `get_gk`: the list of the `g_k` field over the states. -/
def SAMSState.gkVec (s : SAMSState) : List Real :=
  s.states.map (·.g_k)

/-- Embeds `_get_target_weights`: the list of the `target_weight`
field over the states. -/
def SAMSState.targetVec (s : SAMSState) : List Real :=
  s.states.map (·.target_weight)

/-- Embeds `scipy.misc.logsumexp`. -/
noncomputable def logsumexp (l : List Real) : Real :=
  Real.log ((l.map Real.exp).sum)

/-- Embeds `state_counts[i] += x` (numpy in-place update; the index is in
range whenever the engine is well-formed, which the theorems assume). -/
def addAt (l : List Real) (i : Nat) (x : Real) : List Real :=
  l.mapIdx fun j v => if j = i then v + x else v

/-- Embeds `_gain_factor(b, stage, end_of_burnin)` (`calibration.py` lines
223-257).  Raises unless `0.5 <= b <= 1.0`; then builds the per-state
gain vector `gain[j]` (`min(pi_j, n^-b)` during burn-in,
`min(pi_j, 1/(n - end_of_burnin + end_of_burnin^b))` during slow-gain),
raising on an unknown stage at the first state (so an empty state list
returns the empty diagonal without raising).  The diagonal matrix
`np.diag(gain)` is represented by its diagonal; `np.dot(diag(gain), v)`
is the pointwise product. -/
noncomputable def gainFactor (s : SAMSState) (b : Real) (stage : String)
    (eob : Nat) : Except String (List Real) :=
  if ¬(0.5 ≤ b ∧ b ≤ 1.0) then
    .error "beta needs to be between 1/2 and 1"
  else if stage = "burn-in" then
    .ok (s.states.map fun st =>
      min st.target_weight (1 / (s.n_adaptations : Real) ^ b))
  else if stage = "slow-gain" then
    .ok (s.states.map fun st =>
      min st.target_weight
        (1 / ((s.n_adaptations : Real) - (eob : Real) + (eob : Real) ^ b)))
  else if s.states.isEmpty then .ok []
  else .error "Invalid SAMS adaptation stage specified."

/-- Embeds `_binary_update` (`calibration.py` lines 154-185): the update is
`1/pi_j` masked to the current state (`delta[current] = 1` raises an
IndexError when the current state is out of range, before any
mutation), scaled by the gain; `state_counts[current]` is incremented
by `sqrt(n_adaptations)` just before returning.  Returns the update
vector together with the new `state_counts`. -/
noncomputable def binaryUpdate (s : SAMSState) (b : Real) (stage : String)
    (eob : Nat) : Except String (List Real × List Real) :=
  if s.current_state < s.states.length then
    let base := s.states.map fun st => 1 / st.target_weight
    let delta := (List.range s.states.length).map
      fun j => if j = s.current_state then (1 : Real) else 0
    let u := List.zipWith (· * ·) base delta
    (gainFactor s b stage eob).map fun g =>
      (List.zipWith (· * ·) g u,
        addAt s.state_counts s.current_state
          (Real.sqrt (s.n_adaptations : Real)))
  else .error "IndexError"

/-- Embeds `_global_update` (`calibration.py` lines 187-221): importance
weights `w_j = exp(log pi_j - zeta_j - ub_j - logsumexp(...))`, update
`(1/pi_j) * (w_j/pi_j)` scaled by the gain; every state count is
incremented by `sqrt(n_adaptations) * w_j` just before returning. -/
noncomputable def globalUpdate (s : SAMSState) (b : Real) (stage : String)
    (eob : Nat) : Except String (List Real × List Real) :=
  let zeta := s.gkVec
  let pi_j := s.targetVec
  let base := pi_j.map fun p => 1 / p
  let logw0 := List.zipWith (fun pz ub => pz - ub)
    (List.zipWith (fun p z => Real.log p - z) pi_j zeta)
    s.reduced_potentials
  let logw := logw0.map fun x => x - logsumexp logw0
  let w := logw.map Real.exp
  let u := List.zipWith (· * ·) base (List.zipWith (· / ·) w pi_j)
  (gainFactor s b stage eob).map fun g =>
    (List.zipWith (· * ·) g u,
      List.zipWith (fun c wj => c + Real.sqrt (s.n_adaptations : Real) * wj)
        s.state_counts w)

/-- Embeds `set_gk(zetas)` (`calibration.py` lines 110-123): write each
entry of `zetas` into the `g_k` field of the state with the same
position; states beyond the
end of `zetas` keep their `g_k` (a `zetas` longer than the state list
would raise an IndexError in the source; that case is unreachable from
`adapt_zetas`). -/
def setGkList : List TState → List Real → List TState
  | sts, [] => sts
  | [], _ :: _ => []
  | st :: sts, z :: zs => { st with g_k := z } :: setGkList sts zs

/-- Embeds the scheme dispatch of `adapt_zetas` (`calibration.py` lines
89-94): the binary or global update, or a raised error for an unknown
scheme name. -/
noncomputable def schemeUpdate (scheme : String) (s : SAMSState)
    (b : Real) (stage : String) (eob : Nat) :
    Except String (List Real × List Real) :=
  if scheme = "binary" then binaryUpdate s b stage eob
  else if scheme = "global" then globalUpdate s b stage eob
  else .error "Unknown adaptation scheme"

/-- Embeds the very first mutation of `adapt_zetas` (`calibration.py`
line 84): `self.n_adaptations += 1`. -/
def SAMSState.tick (s : SAMSState) : SAMSState :=
  { s with n_adaptations := s.n_adaptations + 1 }

/-- Embeds the write-back part of `adapt_zetas`: the new
`state_counts` (mutated inside the scheme update) and `set_gk(zeta_t)`
writing the recentered zeta vector into the states. -/
def SAMSState.writeBack (s : SAMSState) (counts zetaT : List Real) :
    SAMSState :=
  { s with state_counts := counts, states := setGkList s.states zetaT }

/-- Embeds the convergence diagnostic of `adapt_zetas` (`calibration.py`
lines 104-106): `sum(abs(target - state_counts/state_counts.sum()))`. -/
noncomputable def targetDeviation (targets counts : List Real) : Real :=
  (List.zipWith (fun t c => |t - c|) targets
    (counts.map fun c => c / counts.sum)).sum

/-- Embeds `adapt_zetas(scheme, b, stage, end_of_burnin)` (`calibration.py`
lines 61-108).  Mutations happen in source order: `n_adaptations += 1`
first (`SAMSState.tick`), then the scheme update (which may raise from
`_gain_factor`), then `zeta += update`, recentering
`zeta_t = zeta - zeta[0]` (reading `zeta[0]` raises on an empty state
list), and `set_gk`.  The returned pair is (state after the call,
either the target-deviation diagnostic or the raised error). -/
noncomputable def adaptZetas (s : SAMSState) (scheme : String) (b : Real)
    (stage : String) (eob : Nat) : SAMSState × Except String Real :=
  match schemeUpdate scheme s.tick b stage eob with
  | .error e => (s.tick, .error e)
  | .ok (update, counts1) =>
    match (List.zipWith (· + ·) s.tick.gkVec update).head? with
    | none => ({ s.tick with state_counts := counts1 }, .error "IndexError")
    | some z0 =>
      (s.tick.writeBack counts1
          ((List.zipWith (· + ·) s.tick.gkVec update).map fun z => z - z0),
        .ok (targetDeviation
          (s.tick.writeBack counts1
            ((List.zipWith (· + ·) s.tick.gkVec update).map
              fun z => z - z0)).targetVec
          counts1))

/-- The recentering `zeta_t = zeta - zeta[0]` applied to a vector. -/
def recenter (v : List Real) : List Real :=
  v.map fun z => z - v.headI

/-! ## State-population models (`calibration.py` lines 277-379) -/

/-- Embeds `pow(10.0, x)`, used by all population model constructors. -/
noncomputable def pow10 (x : Real) : Real := (10 : Real) ^ x

namespace Histidine

/-- Constant `Histidine.pka_d`. -/
def pka_d : Real := 6.5

/-- Constant `Histidine.pka_e`. -/
def pka_e : Real := 7.1

/-- Embeds `Histidine.__init__(pH)`: the pair `(kd, ke)` with
`kd = pow(10.0, pH - pka_d)` and `ke = pow(10.0, pH - pka_e)`. -/
noncomputable def ofPH (pH : Real) : Real × Real :=
  (pow10 (pH - pka_d), pow10 (pH - pka_e))

/-- Embeds `hip_concentration`, the doubly protonated form. -/
noncomputable def hip_concentration (m : Real × Real) : Real :=
  1 / (m.2 + m.1 + 1)

/-- Embeds `hie_concentration`, the epsilon protonated form. -/
noncomputable def hie_concentration (m : Real × Real) : Real :=
  m.2 / (m.2 + m.1 + 1)

/-- Embeds `hid_concentration`, the delta protonated form. -/
noncomputable def hid_concentration (m : Real × Real) : Real :=
  m.1 / (m.2 + m.1 + 1)

/-- Embeds `Histidine.populations()`. -/
noncomputable def populations (m : Real × Real) : List Real :=
  [hip_concentration m, hid_concentration m, hie_concentration m]

end Histidine

namespace Aspartic4

/-- Embeds `Aspartic4.__init__(pH)` and the inherited constructors of
`Glutamic4`, `Lysine`, `Tyrosine`, `Cysteine`:
`k = pow(10.0, pH - pka)` for the per-class `pka`. -/
noncomputable def ofPH (pka pH : Real) : Real := pow10 (pH - pka)

/-- Embeds `protonated_concentration`. -/
noncomputable def protonated_concentration (k : Real) : Real :=
  1 / (k + 1)

/-- Embeds `deprotonated_concenration` (sic, the source spells it this
way): `k / (k + 1)`. -/
noncomputable def deprotonated_concentration (k : Real) : Real :=
  k / (k + 1)

/-- Embeds `Aspartic4.populations()` (inherited unchanged by
`Glutamic4`): the deprotonated state followed by the four protonated
rotamers at a quarter of the protonated concentration each. -/
noncomputable def populations (k : Real) : List Real :=
  [deprotonated_concentration k,
    protonated_concentration k / 4, protonated_concentration k / 4,
    protonated_concentration k / 4, protonated_concentration k / 4]

/-- Embeds `Lysine.populations()` (inherited unchanged by `Tyrosine`
and `Cysteine`). -/
noncomputable def lysinePopulations (k : Real) : List Real :=
  [protonated_concentration k, deprotonated_concentration k]

end Aspartic4

/-- Constant `Aspartic4.pka`. -/
def pkaAspartic4 : Real := 4.0

/-- Constant `Glutamic4.pka`. -/
def pkaGlutamic4 : Real := 4.4

/-- Constant `Lysine.pka`. -/
def pkaLysine : Real := 10.4

/-- Constant `Tyrosine.pka`. -/
def pkaTyrosine : Real := 9.6

/-- Constant `Cysteine.pka`. -/
def pkaCysteine : Real := 8.5

/-! ## Claims about the Chen-Roux swap selection -/

/-- Claim C1: for every pair of integer charges,
`_select_swaps_chenroux` terminates (never reaches the
impossible-scenario branch) and the returned swap-count dictionary has
net charge contribution exactly `-(finalCharge - initialCharge)`. -/
theorem chenroux_terminates_and_offsets_charge (i f : Int) :
    ∃ s : Swaps, selectSwapsChenroux i f = .ok s ∧
      s.netCharge = -(f - i) := by
  obtain ⟨s', hok, hnet⟩ :=
    selectSwapsAux_spec (f - i).natAbs i f le_rfl ⟨0, 0, 0, 0⟩
  refine ⟨s', hok, ?_⟩
  have h0 : (Swaps.netCharge ⟨0, 0, 0, 0⟩) = 0 := by decide
  rw [hnet, h0]
  omega

/-- Claim C3: whenever the residual `charge_to_counter = f - i` is
nonzero, one of the four reduction rules of `_select_swaps_chenroux`
matches (so the LogicError branch is unreachable) and applying it
strictly decreases the absolute residual. -/
theorem chenroux_step_matches_and_decreases (i f : Int)
    (h : f - i ≠ 0) :
    ∃ k i', chenrouxRule i f = some (k, i') ∧
      (f - i').natAbs < (f - i).natAbs := by
  obtain ⟨k, i', hr⟩ := chenrouxRule_total h
  exact ⟨k, i', hr, chenrouxRule_decreases hr⟩

/-- Witness for C3 at `initial_charge = 0`, `final_charge = 3`. -/
theorem chenroux_step_matches_and_decreases_witness :
    (3 : Int) - 0 ≠ 0 ∧
      ∃ k i', chenrouxRule 0 3 = some (k, i') ∧
        ((3 : Int) - i').natAbs < ((3 : Int) - 0).natAbs :=
  ⟨by decide, chenroux_step_matches_and_decreases 0 3 (by decide)⟩

/-- Claim C4: `_validate_swaps` raises whenever both opposite-charge
additions, both opposite-charge removals, or both directions of the
same species pair are nonzero, and returns without raising whenever at
most one of the four counts is nonzero. -/
theorem validate_swaps_spec (s : Swaps) :
    ((s.waterToCation ≠ 0 ∧ s.waterToAnion ≠ 0) ∨
      (s.cationToWater ≠ 0 ∧ s.anionToWater ≠ 0) ∨
      (s.waterToCation ≠ 0 ∧ s.cationToWater ≠ 0) ∨
      (s.waterToAnion ≠ 0 ∧ s.anionToWater ≠ 0) →
        ∃ msg, validateSwaps s = .error msg) ∧
    (s.atMostOneNonzero → validateSwaps s = .ok ()) := by
  unfold validateSwaps Swaps.atMostOneNonzero
  constructor
  · intro h
    split_ifs with h1 h2 h3 h4
    · exact ⟨_, rfl⟩
    · exact ⟨_, rfl⟩
    · exact ⟨_, rfl⟩
    · exact ⟨_, rfl⟩
    · exact absurd h (by tauto)
  · intro h
    split_ifs with h1 h2 h3 h4
    · exact absurd h1 (by tauto)
    · exact absurd h2 (by tauto)
    · exact absurd h3 (by tauto)
    · exact absurd h4 (by tauto)
    · rfl

/-- Witness for C4: a conflicting dictionary raises, a single-direction
dictionary passes. -/
theorem validate_swaps_spec_witness :
    (∃ msg, validateSwaps ⟨1, 1, 0, 0⟩ = .error msg) ∧
      validateSwaps ⟨2, 0, 0, 0⟩ = .ok () :=
  ⟨(validate_swaps_spec ⟨1, 1, 0, 0⟩).1 (Or.inl (by decide)),
    (validate_swaps_spec ⟨2, 0, 0, 0⟩).2 (by decide)⟩

/-! ## Claims about the proposal strategies -/

/-- Counterexample to claim C5 as stated: a probability vector whose
sum is within `1e-8` of `1.0` (well inside any floating tolerance) on
which construction nevertheless fails, because the source compares
`sum(p_N) == 1.0` exactly. -/
theorem categorical_init_tolerance_counterexample :
    (∃ msg, categoricalInit [1 / 2, 1 / 2 + 1 / 1000000000] = .error msg) ∧
      |([1 / 2, 1 / 2 + 1 / 1000000000] : List Rat).sum - 1|
        ≤ 1 / 100000000 := by
  constructor
  · refine ⟨"p_N should sum to 1.0", ?_⟩
    unfold categoricalInit
    norm_num
  · norm_num [abs_le]

/-- Amended claim C5: `CategoricalProposal` construction fails exactly
when `sum(p_N)` is not exactly equal to `1.0` (the comparison carries
no tolerance); on success it stores `p_N` and `N = len(p_N)`. -/
theorem categorical_init_exact_sum (p : List Rat) :
    (p.sum = 1 → categoricalInit p = .ok ⟨p, p.length⟩) ∧
      (p.sum ≠ 1 → ∃ msg, categoricalInit p = .error msg) := by
  unfold categoricalInit
  constructor
  · intro h
    rw [if_pos h]
  · intro h
    rw [if_neg h]
    exact ⟨_, rfl⟩

/-- Witness for the amended C5: an exactly-summing vector is accepted
with its length stored; a non-summing vector is rejected. -/
theorem categorical_init_exact_sum_witness :
    categoricalInit [1 / 4, 3 / 4] = .ok ⟨[1 / 4, 3 / 4], 2⟩ ∧
      ∃ msg, categoricalInit [1 / 3] = .error msg :=
  ⟨(categorical_init_exact_sum [1 / 4, 3 / 4]).1 (by norm_num),
    (categorical_init_exact_sum [1 / 3]).2 (by norm_num)⟩

lemma randomSample_some {pool : List Nat} {k : Nat} {l : List Nat}
    (h : randomSample pool k = some l) :
    k ≤ pool.length ∧ l.length = k := by
  unfold randomSample at h
  split_ifs at h with hk
  cases h
  exact ⟨hk, by simp [List.length_take, hk]⟩

/-- Counterexample to claim C6 as stated: with an eligible pool of size
exactly 1 and a categorical distribution of length `N = 2`, the draw
`ndraw = 2` makes `CategoricalProposal.propose_states` fail
(`random.sample` raises) instead of degenerating to a single draw. -/
theorem categorical_pool_one_counterexample :
    ([5] : List Nat).length = 1 ∧
      1 < (CategoricalProposal.mk [1 / 2, 1 / 2] 2).N ∧
      categoricalProposeStates ⟨[1 / 2, 1 / 2], 2⟩ [0] [5] 1
        (fun _ => 0) = none :=
  ⟨rfl, by decide, rfl⟩

/-- Amended claim C6: no strategy ever returns more changing-group
indices than the eligible pool holds; with a pool of size exactly 1,
`DoubleProposal.propose_states` always degenerates to exactly one
index, while `CategoricalProposal.propose_states` returns exactly one
index when the categorical count draw is 1 and fails (the underlying
sample raises) when the drawn count exceeds the pool. -/
theorem proposal_pool_bound_and_degeneration
    (states pool : List Nat) (pick : Nat → Nat) (drawTwo : Bool)
    (c : CategoricalProposal) (nChoice : Nat) :
    (∀ r, uniformProposeStates states pool pick = some r →
      r.changedIndices.length ≤ pool.length) ∧
    (∀ r, doubleProposeStates states pool drawTwo pick = some r →
      r.changedIndices.length ≤ pool.length) ∧
    (∀ r, categoricalProposeStates c states pool nChoice pick = some r →
      r.changedIndices.length ≤ pool.length) ∧
    (pool.length = 1 →
      ∃ r, doubleProposeStates states pool drawTwo pick = some r ∧
        r.changedIndices.length = 1) ∧
    (pool.length = 1 → nChoice = 0 →
      ∃ r, categoricalProposeStates c states pool nChoice pick = some r ∧
        r.changedIndices.length = 1) ∧
    (pool.length = 1 → 0 < nChoice →
      categoricalProposeStates c states pool nChoice pick = none) := by
  refine ⟨?_, ?_, ?_, ?_, ?_, ?_⟩
  · intro r hr
    obtain ⟨idxs, hs, rfl⟩ := Option.map_eq_some'.mp hr
    obtain ⟨hk, hl⟩ := randomSample_some hs
    simpa [hl] using hk
  · intro r hr
    obtain ⟨idxs, hs, rfl⟩ := Option.map_eq_some'.mp hr
    obtain ⟨hk, hl⟩ := randomSample_some hs
    simpa [hl] using hk
  · intro r hr
    obtain ⟨idxs, hs, rfl⟩ := Option.map_eq_some'.mp hr
    obtain ⟨hk, hl⟩ := randomSample_some hs
    simpa [hl] using hk
  · intro hp
    have hnd : ¬ (1 < pool.length ∧ drawTwo = true) := by
      rw [hp]
      simp
    have h1 : 1 ≤ pool.length := by omega
    refine ⟨⟨applyNewStates states (pool.take 1) pick, pool.take 1, 0⟩, ?_, ?_⟩
    · simp [doubleProposeStates, randomSample, hnd, h1]
    · rw [List.length_take]
      omega
  · intro hp hn
    subst hn
    have h1 : 0 + 1 ≤ pool.length := by omega
    refine ⟨⟨applyNewStates states (pool.take 1) pick, pool.take 1, 0⟩, ?_, ?_⟩
    · simp [categoricalProposeStates, randomSample, h1]
    · rw [List.length_take]
      omega
  · intro hp hn
    have h1 : ¬ (nChoice + 1 ≤ pool.length) := by omega
    simp [categoricalProposeStates, randomSample, h1]

/-- Witness for the amended C6 on a pool of size one: the double
strategy returns one index even when the two-residue draw fired, the
categorical strategy returns one index for count draw 1 and fails for
count draw 2. -/
theorem proposal_pool_bound_and_degeneration_witness :
    (∃ r, doubleProposeStates [0] [7] true (fun _ => 0) = some r ∧
      r.changedIndices.length = 1) ∧
    (∃ r, categoricalProposeStates ⟨[1 / 2, 1 / 2], 2⟩ [0] [7] 0
        (fun _ => 0) = some r ∧ r.changedIndices.length = 1) ∧
    categoricalProposeStates ⟨[1 / 2, 1 / 2], 2⟩ [0] [7] 1
      (fun _ => 0) = none :=
  ⟨(proposal_pool_bound_and_degeneration [0] [7] (fun _ => 0) true
      ⟨[1 / 2, 1 / 2], 2⟩ 0).2.2.2.1 rfl,
    (proposal_pool_bound_and_degeneration [0] [7] (fun _ => 0) true
      ⟨[1 / 2, 1 / 2], 2⟩ 0).2.2.2.2.1 rfl rfl,
    (proposal_pool_bound_and_degeneration [0] [7] (fun _ => 0) true
      ⟨[1 / 2, 1 / 2], 2⟩ 1).2.2.2.2.2 rfl (by decide)⟩

/-! ## Claim about the salt-swap selection probabilities -/

/-- Claim C2 fails on the code: evaluating the `cation_to_water` branch
of `select_ions` at `n_waters = 3`, `n_cations = 1`, `n_anions = 0`,
`cation_to_water = 1` and zero chemical potential, the source adds
`-log C(n_cations + 1, 1) = -log 2` to the log-ratio, while the
combinatorial identity stated by the spec (and by the comment in the
source at `proposals.py` lines 305-306) over the converted-to water
pool prescribes `-log C(n_waters + 1, 1) = -log 4`; the two
contributions differ. -/
theorem select_ions_cation_reverse_pool_bug :
    selectIonsLogRatio 0 (1 / 2) (1 / 2) 3 1 0 0 ⟨0, 0, 1, 0⟩
        = -Real.log 2 ∧
      selectIonsLogRatioSpec 0 (1 / 2) (1 / 2) 3 1 0 0 ⟨0, 0, 1, 0⟩
        = -Real.log 4 ∧
      (-Real.log 2 : Real) ≠ -Real.log 4 := by
  refine ⟨?_, ?_, ?_⟩
  · simp [selectIonsLogRatio, comb]
  · simp [selectIonsLogRatioSpec, comb]
  · intro h
    have h2 : Real.log 2 = Real.log 4 := by linarith [neg_inj.mp h]
    have hlt : Real.log 2 < Real.log 4 :=
      Real.log_lt_log (by norm_num) (by norm_num)
    linarith

/-! ## Claims about the SAMS calibration engine -/

lemma gainFactor_invalid_b (s : SAMSState) {b : Real} (stage : String)
    (eob : Nat) (hb : ¬(0.5 ≤ b ∧ b ≤ 1.0)) :
    gainFactor s b stage eob = .error "beta needs to be between 1/2 and 1" := by
  unfold gainFactor
  rw [if_pos hb]

lemma binaryUpdate_invalid_b (s : SAMSState) {b : Real} (stage : String)
    (eob : Nat) (hb : ¬(0.5 ≤ b ∧ b ≤ 1.0)) :
    ∃ e, binaryUpdate s b stage eob = .error e := by
  unfold binaryUpdate
  split_ifs with h
  · rw [gainFactor_invalid_b s stage eob hb]
    exact ⟨_, rfl⟩
  · exact ⟨_, rfl⟩

lemma globalUpdate_invalid_b (s : SAMSState) {b : Real} (stage : String)
    (eob : Nat) (hb : ¬(0.5 ≤ b ∧ b ≤ 1.0)) :
    ∃ e, globalUpdate s b stage eob = .error e := by
  simp only [globalUpdate]
  rw [gainFactor_invalid_b s stage eob hb]
  exact ⟨_, rfl⟩

lemma schemeUpdate_invalid_b (s : SAMSState) {scheme : String} {b : Real}
    (stage : String) (eob : Nat)
    (hscheme : scheme = "binary" ∨ scheme = "global")
    (hb : ¬(0.5 ≤ b ∧ b ≤ 1.0)) :
    ∃ e, schemeUpdate scheme s b stage eob = .error e := by
  rcases hscheme with h | h <;> subst h
  · obtain ⟨e, he⟩ := binaryUpdate_invalid_b s stage eob hb
    refine ⟨e, ?_⟩
    unfold schemeUpdate
    rw [if_pos rfl]
    exact he
  · obtain ⟨e, he⟩ := globalUpdate_invalid_b s stage eob hb
    refine ⟨e, ?_⟩
    unfold schemeUpdate
    rw [if_neg (by decide), if_pos rfl]
    exact he

lemma adaptZetas_of_schemeUpdate_error {s : SAMSState} {scheme : String}
    {b : Real} {stage : String} {eob : Nat} {e : String}
    (he : schemeUpdate scheme s.tick b stage eob = .error e) :
    adaptZetas s scheme b stage eob = (s.tick, .error e) := by
  unfold adaptZetas
  rw [he]

/-- Amended claim C7: calling `adapt_zetas` with a gain-decay parameter
`b` outside `[0.5, 1.0]` fails with the configuration error, and the
failing call leaves `state_counts` and every `g_k` untouched — but the
`n_adaptations` counter has already been incremented by one when the
error is raised. -/
theorem adapt_zetas_invalid_b_mutates_only_counter
    (s : SAMSState) (scheme : String) (b : Real) (stage : String)
    (eob : Nat)
    (hscheme : scheme = "binary" ∨ scheme = "global")
    (hb : ¬(0.5 ≤ b ∧ b ≤ 1.0)) :
    (∃ e, (adaptZetas s scheme b stage eob).2 = .error e) ∧
      (adaptZetas s scheme b stage eob).1 =
        { s with n_adaptations := s.n_adaptations + 1 } := by
  obtain ⟨e, he⟩ := schemeUpdate_invalid_b s.tick stage eob hscheme hb
  rw [adaptZetas_of_schemeUpdate_error he]
  exact ⟨⟨e, rfl⟩, rfl⟩

/-- Witness for the amended C7 with the global scheme and `b = 2`. -/
theorem adapt_zetas_invalid_b_mutates_only_counter_witness :
    ¬((0.5 : Real) ≤ 2 ∧ (2 : Real) ≤ 1.0) ∧
      ((∃ e, (adaptZetas ⟨3, [0], [⟨0, 1⟩], 0, [0]⟩ "global" 2
          "slow-gain" 0).2 = .error e) ∧
        (adaptZetas ⟨3, [0], [⟨0, 1⟩], 0, [0]⟩ "global" 2
          "slow-gain" 0).1 = ⟨4, [0], [⟨0, 1⟩], 0, [0]⟩) :=
  ⟨by norm_num,
    adapt_zetas_invalid_b_mutates_only_counter ⟨3, [0], [⟨0, 1⟩], 0, [0]⟩
      "global" 2 "slow-gain" 0 (Or.inr rfl) (by norm_num)⟩

/-- Counterexample to claim C7 as stated: with `b = 0.3` the call
fails, yet the engine is not exactly as before the call — the
`n_adaptations` counter has moved from 0 to 1. -/
theorem adapt_zetas_invalid_b_counterexample :
    (∃ e, (adaptZetas ⟨0, [0], [⟨0, 1⟩], 0, [0]⟩ "binary" 0.3
        "burn-in" 0).2 = .error e) ∧
      (adaptZetas ⟨0, [0], [⟨0, 1⟩], 0, [0]⟩ "binary" 0.3
        "burn-in" 0).1.n_adaptations = 1 ∧
      (1 : Nat) ≠ 0 := by
  have hb : ¬((0.5 : Real) ≤ 0.3 ∧ (0.3 : Real) ≤ 1.0) := by norm_num
  obtain ⟨e, he⟩ := schemeUpdate_invalid_b
    (⟨1, [0], [⟨0, 1⟩], 0, [0]⟩ : SAMSState) "burn-in" 0 (Or.inl rfl) hb
  have hred := @adaptZetas_of_schemeUpdate_error
    ⟨0, [0], [⟨0, 1⟩], 0, [0]⟩ "binary" 0.3 "burn-in" 0 e he
  rw [hred]
  exact ⟨⟨e, rfl⟩, rfl, by norm_num⟩

lemma gainFactor_ok (s : SAMSState) {b : Real} {stage : String} (eob : Nat)
    (hb : 0.5 ≤ b ∧ b ≤ 1.0)
    (hstage : stage = "burn-in" ∨ stage = "slow-gain") :
    ∃ g, gainFactor s b stage eob = .ok g ∧
      g.length = s.states.length := by
  unfold gainFactor
  rw [if_neg (not_not_intro hb)]
  rcases hstage with h | h <;> subst h
  · rw [if_pos rfl]
    exact ⟨_, rfl, by simp⟩
  · rw [if_neg (by decide), if_pos rfl]
    exact ⟨_, rfl, by simp⟩

lemma binaryUpdate_ok (s : SAMSState) {b : Real} {stage : String}
    (eob : Nat) (hb : 0.5 ≤ b ∧ b ≤ 1.0)
    (hstage : stage = "burn-in" ∨ stage = "slow-gain")
    (hcur : s.current_state < s.states.length) :
    ∃ u c, binaryUpdate s b stage eob = .ok (u, c) ∧
      u.length = s.states.length := by
  obtain ⟨g, hg, hglen⟩ := gainFactor_ok s eob hb hstage
  unfold binaryUpdate
  rw [if_pos hcur, hg]
  refine ⟨_, _, rfl, ?_⟩
  simp [List.length_zipWith, hglen]

lemma globalUpdate_ok (s : SAMSState) {b : Real} {stage : String}
    (eob : Nat) (hb : 0.5 ≤ b ∧ b ≤ 1.0)
    (hstage : stage = "burn-in" ∨ stage = "slow-gain")
    (hub : s.reduced_potentials.length = s.states.length) :
    ∃ u c, globalUpdate s b stage eob = .ok (u, c) ∧
      u.length = s.states.length := by
  obtain ⟨g, hg, hglen⟩ := gainFactor_ok s eob hb hstage
  unfold globalUpdate
  rw [hg]
  refine ⟨_, _, rfl, ?_⟩
  simp [List.length_zipWith, hglen, SAMSState.gkVec, SAMSState.targetVec,
    hub]

lemma setGkList_gkVec : ∀ (sts : List TState) (zs : List Real),
    zs.length = sts.length → (setGkList sts zs).map (·.g_k) = zs := by
  intro sts
  induction sts with
  | nil =>
    intro zs h
    have hz : zs = [] := List.length_eq_zero.mp (by simpa using h)
    subst hz
    rfl
  | cons st sts ih =>
    intro zs h
    cases zs with
    | nil => simp at h
    | cons z zs => simp [setGkList, ih zs (by simpa using h)]

lemma schemeUpdate_ok (s : SAMSState) {scheme : String} {b : Real}
    {stage : String} (eob : Nat)
    (hscheme : scheme = "binary" ∨ scheme = "global")
    (hb : 0.5 ≤ b ∧ b ≤ 1.0)
    (hstage : stage = "burn-in" ∨ stage = "slow-gain")
    (hcur : s.current_state < s.states.length)
    (hub : s.reduced_potentials.length = s.states.length) :
    ∃ u c, schemeUpdate scheme s b stage eob = .ok (u, c) ∧
      u.length = s.states.length := by
  rcases hscheme with h | h <;> subst h
  · obtain ⟨u, c, h1, h2⟩ := binaryUpdate_ok s eob hb hstage hcur
    refine ⟨u, c, ?_, h2⟩
    unfold schemeUpdate
    rw [if_pos rfl]
    exact h1
  · obtain ⟨u, c, h1, h2⟩ := globalUpdate_ok s eob hb hstage hub
    refine ⟨u, c, ?_, h2⟩
    unfold schemeUpdate
    rw [if_neg (by decide), if_pos rfl]
    exact h1

/-- Claim C8: after every successful `adapt_zetas` call (either scheme,
valid gain parameters, well-formed engine state), the zeta vector
written back equals the old zeta plus the scheme update, re-centered by
subtracting its component of index 0; consequently the `g_k` of the
reference (index 0) titration state is 0 after the call. -/
theorem adapt_zetas_recenters_and_zeroes_reference
    (s : SAMSState) (scheme : String) (b : Real) (stage : String)
    (eob : Nat)
    (hscheme : scheme = "binary" ∨ scheme = "global")
    (hb : 0.5 ≤ b ∧ b ≤ 1.0)
    (hstage : stage = "burn-in" ∨ stage = "slow-gain")
    (hne : s.states ≠ [])
    (hcur : s.current_state < s.states.length)
    (hub : s.reduced_potentials.length = s.states.length) :
    ∃ upd s2 d,
      schemeUpdate scheme s.tick b stage eob = .ok (upd, s2.state_counts) ∧
      adaptZetas s scheme b stage eob = (s2, .ok d) ∧
      s2.gkVec = recenter (List.zipWith (· + ·) s.gkVec upd) ∧
      s2.gkVec.head? = some 0 := by
  obtain ⟨u, c, hfn, hulen⟩ := schemeUpdate_ok s.tick eob hscheme hb
    hstage hcur hub
  have hlen : (List.zipWith (· + ·) s.tick.gkVec u).length
      = s.states.length := by
    simp [SAMSState.gkVec, SAMSState.tick, List.length_zipWith, hulen]
  have hne' : List.zipWith (· + ·) s.tick.gkVec u ≠ [] := by
    intro hnil
    rw [hnil] at hlen
    exact hne (List.length_eq_zero.mp hlen.symm)
  obtain ⟨z0, t, hcons⟩ := List.exists_cons_of_ne_nil hne'
  have hhead : (List.zipWith (· + ·) s.tick.gkVec u).head? = some z0 := by
    rw [hcons]
    rfl
  have hadapt : adaptZetas s scheme b stage eob =
      (s.tick.writeBack c
          ((List.zipWith (· + ·) s.tick.gkVec u).map fun z => z - z0),
        .ok (targetDeviation
          (s.tick.writeBack c
            ((List.zipWith (· + ·) s.tick.gkVec u).map
              fun z => z - z0)).targetVec
          c)) := by
    unfold adaptZetas
    rw [hfn]
    dsimp only
    rw [hhead]
  have hzT : ((List.zipWith (· + ·) s.tick.gkVec u).map
      fun z => z - z0).length = s.tick.states.length := by
    rw [List.length_map, hlen]
    rfl
  have hgk2 : (s.tick.writeBack c
      ((List.zipWith (· + ·) s.tick.gkVec u).map fun z => z - z0)).gkVec
        = (List.zipWith (· + ·) s.tick.gkVec u).map fun z => z - z0 := by
    show (setGkList s.tick.states _).map (·.g_k) = _
    exact setGkList_gkVec _ _ hzT
  refine ⟨u,
    s.tick.writeBack c
      ((List.zipWith (· + ·) s.tick.gkVec u).map fun z => z - z0),
    targetDeviation
      (s.tick.writeBack c
        ((List.zipWith (· + ·) s.tick.gkVec u).map
          fun z => z - z0)).targetVec
      c,
    hfn, hadapt, ?_, ?_⟩
  · rw [hgk2]
    have hsgk : s.gkVec = s.tick.gkVec := rfl
    rw [hsgk, hcons]
    unfold recenter
    rfl
  · rw [hgk2, hcons]
    simp

/-- Witness for C8: a binary-scheme call with `b = 1` on a two-state
group succeeds and zeroes the reference bias. -/
theorem adapt_zetas_recenters_and_zeroes_reference_witness :
    ∃ upd s2 d,
      schemeUpdate "binary"
          (SAMSState.tick ⟨0, [0, 0], [⟨0, 1 / 2⟩, ⟨0, 1 / 2⟩], 0, [0, 0]⟩)
          1 "burn-in" 0 = .ok (upd, s2.state_counts) ∧
      adaptZetas ⟨0, [0, 0], [⟨0, 1 / 2⟩, ⟨0, 1 / 2⟩], 0, [0, 0]⟩
          "binary" 1 "burn-in" 0 = (s2, .ok d) ∧
      s2.gkVec = recenter (List.zipWith (· + ·)
        (SAMSState.gkVec ⟨0, [0, 0], [⟨0, 1 / 2⟩, ⟨0, 1 / 2⟩], 0, [0, 0]⟩)
        upd) ∧
      s2.gkVec.head? = some 0 :=
  adapt_zetas_recenters_and_zeroes_reference
    ⟨0, [0, 0], [⟨0, 1 / 2⟩, ⟨0, 1 / 2⟩], 0, [0, 0]⟩ "binary" 1
    "burn-in" 0 (Or.inl rfl) (by norm_num) (Or.inl rfl) (by simp)
    (by simp) (by simp)

/-! ## Claims about the state-population models -/

lemma pow10_pos (x : Real) : 0 < pow10 x :=
  Real.rpow_pos_of_pos (by norm_num) x

lemma pow10_zero : pow10 0 = 1 := Real.rpow_zero 10

lemma one_lt_pow10 {x : Real} (hx : 0 < x) : 1 < pow10 x :=
  (Real.one_lt_rpow_iff_of_pos (by norm_num)).mpr
    (Or.inl ⟨by norm_num, hx⟩)

/-- Counterexample to claim C9 as stated: at `pH = 7.1 = pka_e` the
epsilon-protonated concentration does not equal the delta-protonated
one (it equals the doubly protonated concentration instead, since
`ke = 1` there while `kd = 10 ^ 0.6 > 1`). -/
theorem histidine_hie_ne_hid_at_pka_e :
    Histidine.hie_concentration (Histidine.ofPH 7.1)
      ≠ Histidine.hid_concentration (Histidine.ofPH 7.1) := by
  have hke : pow10 ((7.1 : Real) - Histidine.pka_e) = 1 := by
    rw [show (7.1 : Real) - Histidine.pka_e = 0 by
      norm_num [Histidine.pka_e]]
    exact pow10_zero
  have hkd : 1 < pow10 ((7.1 : Real) - Histidine.pka_d) :=
    one_lt_pow10 (by norm_num [Histidine.pka_d])
  unfold Histidine.hie_concentration Histidine.hid_concentration
    Histidine.ofPH
  dsimp only
  rw [hke]
  intro h
  set kd := pow10 ((7.1 : Real) - Histidine.pka_d) with hkddef
  have hD : (1 : Real) + kd + 1 ≠ 0 := by
    have : (0 : Real) < kd := lt_trans one_pos hkd
    positivity
  rw [div_eq_div_iff hD hD] at h
  have h1 : (1 : Real) = kd := mul_right_cancel₀ hD h
  linarith

/-- Amended claim C9: at `pH = 7.1` (equal to `pka_e`) the value of
`hie_concentration()` equals `hip_concentration()`, and at `pH = 6.5`
(equal to `pka_d`) the value of `hip_concentration()` equals
`hid_concentration()`. -/
theorem histidine_pka_crossings :
    Histidine.hie_concentration (Histidine.ofPH 7.1)
        = Histidine.hip_concentration (Histidine.ofPH 7.1) ∧
      Histidine.hip_concentration (Histidine.ofPH 6.5)
        = Histidine.hid_concentration (Histidine.ofPH 6.5) := by
  constructor
  · have hke : pow10 ((7.1 : Real) - Histidine.pka_e) = 1 := by
      rw [show (7.1 : Real) - Histidine.pka_e = 0 by
        norm_num [Histidine.pka_e]]
      exact pow10_zero
    unfold Histidine.hie_concentration Histidine.hip_concentration
      Histidine.ofPH
    dsimp only
    rw [hke]
  · have hkd : pow10 ((6.5 : Real) - Histidine.pka_d) = 1 := by
      rw [show (6.5 : Real) - Histidine.pka_d = 0 by
        norm_num [Histidine.pka_d]]
      exact pow10_zero
    unfold Histidine.hip_concentration Histidine.hid_concentration
      Histidine.ofPH
    dsimp only
    rw [hkd]

lemma histidine_populations_sum {kd ke : Real} (hkd : 0 < kd)
    (hke : 0 < ke) : (Histidine.populations (kd, ke)).sum = 1 := by
  unfold Histidine.populations Histidine.hip_concentration
    Histidine.hie_concentration Histidine.hid_concentration
  dsimp only
  have hD : ke + kd + 1 ≠ 0 := by positivity
  simp only [List.sum_cons, List.sum_nil, add_zero]
  field_simp
  ring

lemma aspartic_populations_sum {k : Real} (hk : 0 < k) :
    (Aspartic4.populations k).sum = 1 := by
  unfold Aspartic4.populations Aspartic4.protonated_concentration
    Aspartic4.deprotonated_concentration
  have hD : k + 1 ≠ 0 := by positivity
  simp only [List.sum_cons, List.sum_nil, add_zero]
  field_simp
  ring

lemma lysine_populations_sum {k : Real} (hk : 0 < k) :
    (Aspartic4.lysinePopulations k).sum = 1 := by
  unfold Aspartic4.lysinePopulations Aspartic4.protonated_concentration
    Aspartic4.deprotonated_concentration
  have hD : k + 1 ≠ 0 := by positivity
  simp only [List.sum_cons, List.sum_nil, add_zero]
  field_simp
  ring

/-- Claim C10: for every population model and every pH, the populations
vector sums exactly to 1. -/
theorem populations_sum_to_one (pH : Real) :
    (Histidine.populations (Histidine.ofPH pH)).sum = 1 ∧
      (Aspartic4.populations (Aspartic4.ofPH pkaAspartic4 pH)).sum = 1 ∧
      (Aspartic4.populations (Aspartic4.ofPH pkaGlutamic4 pH)).sum = 1 ∧
      (Aspartic4.lysinePopulations
        (Aspartic4.ofPH pkaLysine pH)).sum = 1 ∧
      (Aspartic4.lysinePopulations
        (Aspartic4.ofPH pkaTyrosine pH)).sum = 1 ∧
      (Aspartic4.lysinePopulations
        (Aspartic4.ofPH pkaCysteine pH)).sum = 1 :=
  ⟨histidine_populations_sum (pow10_pos _) (pow10_pos _),
    aspartic_populations_sum (pow10_pos _),
    aspartic_populations_sum (pow10_pos _),
    lysine_populations_sum (pow10_pos _),
    lysine_populations_sum (pow10_pos _),
    lysine_populations_sum (pow10_pos _)⟩
